import Mathlib

/-!
Verification development for the snarkVM bytecode `sub.w` (wrapped subtraction)
instruction (`src/bytecode/src/function/instructions/sub_wrapped.rs`) and the
circuit field `One` implementation (`src/circuits/src/field/one.rs`).

The data model (literals, values, registers, operands) and the register file
follow the repository's structure; parts of the repository that are not in the
provided sources (the register file implementation, the generic
`BinaryOperation` parser/printer/codec, and the primitive wrapping-subtraction
operator of the circuits crate) are modelled from the specification, as marked
on each definition.
-/

/-- Circuit visibility mode of a literal (snarkvm_circuits `Mode`). -/
inductive Mode
  | Constant
  | Public
  | Private
deriving DecidableEq

/-- The ten integer kinds of the literal taxonomy, `I8 ... U128`. -/
inductive IntKind
  | i8 | i16 | i32 | i64 | i128
  | u8 | u16 | u32 | u64 | u128
deriving DecidableEq

/-- Bit width of an integer kind. -/
def IntKind.width : IntKind → Nat
  | .i8 => 8 | .i16 => 16 | .i32 => 32 | .i64 => 64 | .i128 => 128
  | .u8 => 8 | .u16 => 16 | .u32 => 32 | .u64 => 64 | .u128 => 128

/-- Signedness of an integer kind. -/
def IntKind.signed : IntKind → Bool
  | .i8 => true | .i16 => true | .i32 => true | .i64 => true | .i128 => true
  | .u8 => false | .u16 => false | .u32 => false | .u64 => false | .u128 => false

/-- Reduction of an integer to its unsigned residue modulo `2 ^ w`. -/
def wrapU (w : Nat) (x : Int) : Nat := (x % ((2 : Int) ^ w)).toNat

/-- Reinterpretation of an unsigned residue as a `w`-bit two's-complement value. -/
def sInterp (w : Nat) (n : Nat) : Int :=
  if n < 2 ^ (w - 1) then (n : Int) else (n : Int) - (2 : Int) ^ w

/-- Wrapping reduction of an integer to the signed `w`-bit range:
`(x mod 2 ^ w)` reinterpreted in two's complement. -/
def wrapS (w : Nat) (x : Int) : Int := sInterp w (wrapU w x)

/-- Smallest value representable in an integer kind. -/
def IntKind.minVal (k : IntKind) : Int :=
  if k.signed then -((2 : Int) ^ (k.width - 1)) else 0

/-- Largest value representable in an integer kind. -/
def IntKind.maxVal (k : IntKind) : Int :=
  if k.signed then (2 : Int) ^ (k.width - 1) - 1 else (2 : Int) ^ k.width - 1

/-- `x` is within the representable range of kind `k`. -/
def IntKind.inRange (k : IntKind) (x : Int) : Prop := k.minVal ≤ x ∧ x ≤ k.maxVal

instance (k : IntKind) (x : Int) : Decidable (k.inRange x) := by
  unfold IntKind.inRange; infer_instance

/-- The wrapping reduction of `x` into kind `k`: `x mod 2 ^ width`,
reinterpreted in `k`'s signedness (spec section 4.5). -/
def IntKind.wrap (k : IntKind) (x : Int) : Int :=
  if k.signed then wrapS k.width x else (wrapU k.width x : Int)

/-- Kind tags of the full literal taxonomy (snarkvm_circuits `LiteralType`). -/
inductive LitKind
  | boolean | address | field | group | string
  | i8 | i16 | i32 | i64 | i128
  | u8 | u16 | u32 | u64 | u128
deriving DecidableEq

/-- Whether a literal kind is one of the ten integer kinds. -/
def LitKind.isInteger : LitKind → Bool
  | .i8 => true | .i16 => true | .i32 => true | .i64 => true | .i128 => true
  | .u8 => true | .u16 => true | .u32 => true | .u64 => true | .u128 => true
  | _ => false

/-- A literal value: a scalar of one of the primitive kinds together with a
visibility mode (snarkvm_circuits `Literal`).  Signed integers carry an `Int`,
unsigned integers a `Nat`; address bodies and string contents are character
lists; field and group elements are abstracted as natural-number
representations of the underlying environment elements. -/
inductive Literal
  | Boolean : Bool → Mode → Literal
  | Address : List Char → Mode → Literal
  | Field : Nat → Mode → Literal
  | Group : Nat → Mode → Literal
  | String : List Char → Mode → Literal
  | I8 : Int → Mode → Literal
  | I16 : Int → Mode → Literal
  | I32 : Int → Mode → Literal
  | I64 : Int → Mode → Literal
  | I128 : Int → Mode → Literal
  | U8 : Nat → Mode → Literal
  | U16 : Nat → Mode → Literal
  | U32 : Nat → Mode → Literal
  | U64 : Nat → Mode → Literal
  | U128 : Nat → Mode → Literal
deriving DecidableEq

/-- The kind tag of a literal. -/
def Literal.kind : Literal → LitKind
  | .Boolean _ _ => .boolean
  | .Address _ _ => .address
  | .Field _ _ => .field
  | .Group _ _ => .group
  | .String _ _ => .string
  | .I8 _ _ => .i8
  | .I16 _ _ => .i16
  | .I32 _ _ => .i32
  | .I64 _ _ => .i64
  | .I128 _ _ => .i128
  | .U8 _ _ => .u8
  | .U16 _ _ => .u16
  | .U32 _ _ => .u32
  | .U64 _ _ => .u64
  | .U128 _ _ => .u128

/-- The integer literal of kind `k` with value `x` and mode `m`
(for unsigned kinds the value is stored as the `Nat` `x.toNat`). -/
def IntKind.mkLit (k : IntKind) (x : Int) (m : Mode) : Literal :=
  match k with
  | .i8 => .I8 x m
  | .i16 => .I16 x m
  | .i32 => .I32 x m
  | .i64 => .I64 x m
  | .i128 => .I128 x m
  | .u8 => .U8 x.toNat m
  | .u16 => .U16 x.toNat m
  | .u32 => .U32 x.toNat m
  | .u64 => .U64 x.toNat m
  | .u128 => .U128 x.toNat m

/-- A value is a single literal or a named composite, an identifier together
with an ordered sequence of literals (bytecode `Value`). -/
inductive Value
  | Literal : Literal → Value
  | Composite : String → List Literal → Value
deriving DecidableEq

/-- A register identifier, `r<locator>` (bytecode helpers `Register`). -/
structure Register where
  locator : Nat
deriving DecidableEq

/-- An instruction operand: a register reference or an inline literal
(bytecode `Operand`). -/
inductive Operand
  | Register : Register → Operand
  | Literal : Literal → Operand
deriving DecidableEq

/-- The shared shape of a binary operation: two operands and a destination
register (bytecode `BinaryOperation`). -/
structure BinaryOperation where
  first : Operand
  second : Operand
  destination : Register
deriving DecidableEq

/-- The operands of a binary operation, in declaration order. -/
def BinaryOperation.operands (op : BinaryOperation) : List Operand :=
  [op.first, op.second]

/-- The `sub.w` instruction: a `BinaryOperation` wrapper
(`SubWrapped` in `sub_wrapped.rs`). -/
structure SubWrapped where
  operation : BinaryOperation
deriving DecidableEq

/-- The operands of a `sub.w` instruction. -/
def SubWrapped.operands (self : SubWrapped) : List Operand :=
  self.operation.operands

/-- The destination register of a `sub.w` instruction. -/
def SubWrapped.destination (self : SubWrapped) : Register :=
  self.operation.destination

/-- The opcode of the instruction, `"sub.w"` (`Opcode for SubWrapped`). -/
def SubWrapped.opcode : String := "sub.w"

/-- A terminal evaluation fault.  `halt` carries the message passed to
`P::halt`; the register-file faults are the `UndefinedRegisterFault` and
`DuplicateDefinitionFault` of the specification's register-file contract. -/
inductive Fault
  | undefinedRegister : Register → Fault
  | duplicateDefinition : Register → Fault
  | halt : String → Fault
deriving DecidableEq

/-- The register file: a mapping from registers to entries.  `none` means the
register is undefined, `some none` defined but unassigned, `some (some v)`
assigned the value `v`.  Modelled from the spec: the `Registers`
implementation is not among the provided sources; spec section 4.1 gives its
define/assign/load contract. -/
abbrev Registers := Register → Option (Option Value)

/-- The empty register file. -/
def Registers.empty : Registers := fun _ => none

/-- Modelled from the spec: `define(r)` reserves slot `r` with no value and
faults if `r` is already defined (spec section 4.1). -/
def Registers.define (regs : Registers) (r : Register) : Except Fault Registers :=
  match regs r with
  | some _ => .error (.duplicateDefinition r)
  | none => .ok (fun x => if x = r then some none else regs x)

/-- Modelled from the spec: `assign(r, v)` requires `r` defined and stores
`v`, overwriting any prior value; it faults if `r` was never defined
(spec section 4.1). -/
def Registers.assign (regs : Registers) (r : Register) (v : Value) :
    Except Fault Registers :=
  match regs r with
  | some _ => .ok (fun x => if x = r then some (some v) else regs x)
  | none => .error (.undefinedRegister r)

/-- Modelled from the spec: loading a register requires it defined and
assigned and returns the stored value (spec section 4.1). -/
def Registers.loadRegister (regs : Registers) (r : Register) :
    Except Fault Value :=
  match regs r with
  | some (some v) => .ok v
  | _ => .error (.undefinedRegister r)

/-- Modelled from the spec: operand resolution — an inline literal resolves to
itself, a register reference is loaded from the register file
(spec section 4.3).  This is the `registers.load(operand)` used by
`SubWrapped::evaluate`. -/
def Registers.load (regs : Registers) (op : Operand) : Except Fault Value :=
  match op with
  | .Literal l => .ok (Value.Literal l)
  | .Register r => regs.loadRegister r

/-- Modelled from the spec: the visibility mode of the result of combining two
operand modes; the spec fixes only that constant combined with constant yields
constant (spec sections 4.5 and 8) and leaves the rest to the
circuit-compilation layer. -/
def combineMode : Mode → Mode → Mode
  | .Constant, .Constant => .Constant
  | _, _ => .Private

/-- Modelled from the spec: the primitive `sub_wrapped` operator of the
circuits crate computes `(first - second) mod 2 ^ width`, reinterpreted in the
literal's signedness (spec section 4.5).  The ten-case dispatch over literal
kinds is that of the `match (first, second)` in `SubWrapped::evaluate`;
`none` corresponds to its fall-through arm. -/
def subWrappedLit : Literal → Literal → Option Literal
  | .I8 a ma, .I8 b mb => some (.I8 (wrapS 8 (a - b)) (combineMode ma mb))
  | .I16 a ma, .I16 b mb => some (.I16 (wrapS 16 (a - b)) (combineMode ma mb))
  | .I32 a ma, .I32 b mb => some (.I32 (wrapS 32 (a - b)) (combineMode ma mb))
  | .I64 a ma, .I64 b mb => some (.I64 (wrapS 64 (a - b)) (combineMode ma mb))
  | .I128 a ma, .I128 b mb => some (.I128 (wrapS 128 (a - b)) (combineMode ma mb))
  | .U8 a ma, .U8 b mb => some (.U8 (wrapU 8 ((a : Int) - (b : Int))) (combineMode ma mb))
  | .U16 a ma, .U16 b mb => some (.U16 (wrapU 16 ((a : Int) - (b : Int))) (combineMode ma mb))
  | .U32 a ma, .U32 b mb => some (.U32 (wrapU 32 ((a : Int) - (b : Int))) (combineMode ma mb))
  | .U64 a ma, .U64 b mb => some (.U64 (wrapU 64 ((a : Int) - (b : Int))) (combineMode ma mb))
  | .U128 a ma, .U128 b mb => some (.U128 (wrapU 128 ((a : Int) - (b : Int))) (combineMode ma mb))
  | _, _ => none

/-- The suffix of the halt message for a composite operand:
`format!("{name} is not a literal")` in `SubWrapped::evaluate`. -/
def compositeMsgSuffix : String := " is not a literal"

/-- An apostrophe character, used in the invalid-instruction message. -/
def aposC : Char := Char.ofNat 39

/-- The halt message for ill-typed operands:
`format!("Invalid '{}' instruction", Self::opcode())`. -/
def invalidSubWMsg : String :=
  "Invalid " ++ String.mk [aposC] ++ SubWrapped.opcode ++ String.mk [aposC]
    ++ " instruction"

/-- `SubWrapped::evaluate` (lines 55-86 of `sub_wrapped.rs`): load the two
operands, requiring each to resolve to a literal; dispatch on the pair of
literal kinds; assign the wrapped difference to the destination.  The Rust
method mutates the register file in place and halts by aborting; here it
returns the fault (if any) together with the register file as it stands when
evaluation stops. -/
def SubWrapped.evaluate (self : SubWrapped) (registers : Registers) :
    Except Fault Unit × Registers :=
  match Registers.load registers self.operation.first with
  | .error f => (.error f, registers)
  | .ok (Value.Composite name _) =>
      (.error (.halt (name ++ compositeMsgSuffix)), registers)
  | .ok (Value.Literal first) =>
    match Registers.load registers self.operation.second with
    | .error f => (.error f, registers)
    | .ok (Value.Composite name _) =>
        (.error (.halt (name ++ compositeMsgSuffix)), registers)
    | .ok (Value.Literal second) =>
      match subWrappedLit first second with
      | none => (.error (.halt invalidSubWMsg), registers)
      | some result =>
        match Registers.assign registers self.operation.destination
            (Value.Literal result) with
        | .error f => (.error f, registers)
        | .ok regs => (.ok (), regs)

/-! ## Textual form

Modelled from the spec: the `BinaryOperation` parser and printer are not among
the provided sources.  Spec section 4.4 gives the binary-arity grammar
`<operand1> <operand2> into <destination>` (the opcode token is handled by the
enclosing `Instruction` envelope: `SubWrapped::parse` delegates directly to
`BinaryOperation::parse`, and the repository's own test parses
`"r0 r1 into r2"`), section 4.2 the literal grammar
`<value><kind-suffix>.<mode>`, with display the exact inverse of parse. -/

/-- Whether a character is a decimal digit. -/
def isDigitC (c : Char) : Bool := 48 ≤ c.toNat && c.toNat ≤ 57

/-- Numeric value of a decimal digit character. -/
def digitVal (c : Char) : Nat := c.toNat - 48

/-- Numeric value of a decimal digit string. -/
def digitsVal (ds : List Char) : Nat :=
  ds.foldl (fun acc c => 10 * acc + digitVal c) 0

/-- The decimal digit character for `d`. -/
def digitChar (d : Nat) : Char := Char.ofNat (48 + d)

/-- Fuelled canonical decimal numeral. -/
def natCharsAux : Nat → Nat → List Char
  | 0, _ => []
  | fuel + 1, n =>
    if n < 10 then [digitChar n]
    else natCharsAux fuel (n / 10) ++ [digitChar (n % 10)]

/-- Canonical decimal numeral of a natural number. -/
def natChars (n : Nat) : List Char := natCharsAux (n + 1) n

/-- Canonical decimal numeral of an integer. -/
def intChars (v : Int) : List Char :=
  if v < 0 then '-' :: natChars (-v).toNat else natChars v.toNat

/-- Textual form of a mode. -/
def modeChars : Mode → List Char
  | .Constant => "constant".data
  | .Public => "public".data
  | .Private => "private".data

/-- The kind suffix token of an integer kind. -/
def IntKind.token : IntKind → List Char
  | .i8 => "i8".data
  | .i16 => "i16".data
  | .i32 => "i32".data
  | .i64 => "i64".data
  | .i128 => "i128".data
  | .u8 => "u8".data
  | .u16 => "u16".data
  | .u32 => "u32".data
  | .u64 => "u64".data
  | .u128 => "u128".data

/-- A double-quote character. -/
def quoteC : Char := Char.ofNat 34

/-- Textual form of a literal, `<value><kind-suffix>.<mode>`. -/
def Literal.displayChars : Literal → List Char
  | .Boolean true m => "true".data ++ '.' :: modeChars m
  | .Boolean false m => "false".data ++ '.' :: modeChars m
  | .Address s m => s ++ '.' :: modeChars m
  | .Field n m => natChars n ++ "field".data ++ '.' :: modeChars m
  | .Group n m => natChars n ++ "group".data ++ '.' :: modeChars m
  | .String s m => quoteC :: s ++ quoteC :: '.' :: modeChars m
  | .I8 v m => intChars v ++ "i8".data ++ '.' :: modeChars m
  | .I16 v m => intChars v ++ "i16".data ++ '.' :: modeChars m
  | .I32 v m => intChars v ++ "i32".data ++ '.' :: modeChars m
  | .I64 v m => intChars v ++ "i64".data ++ '.' :: modeChars m
  | .I128 v m => intChars v ++ "i128".data ++ '.' :: modeChars m
  | .U8 v m => natChars v ++ "u8".data ++ '.' :: modeChars m
  | .U16 v m => natChars v ++ "u16".data ++ '.' :: modeChars m
  | .U32 v m => natChars v ++ "u32".data ++ '.' :: modeChars m
  | .U64 v m => natChars v ++ "u64".data ++ '.' :: modeChars m
  | .U128 v m => natChars v ++ "u128".data ++ '.' :: modeChars m

/-- Textual form of a register, `r<locator>`. -/
def Register.displayChars (r : Register) : List Char := 'r' :: natChars r.locator

/-- Textual form of an operand. -/
def Operand.displayChars : Operand → List Char
  | .Register r => r.displayChars
  | .Literal l => l.displayChars

/-- Textual form of a binary operation,
`<operand1> <operand2> into <destination>`. -/
def BinaryOperation.displayChars (op : BinaryOperation) : List Char :=
  op.first.displayChars ++ ' ' :: op.second.displayChars
    ++ " into ".data ++ op.destination.displayChars

/-- `Display for SubWrapped` writes exactly the display of its operation. -/
def SubWrapped.displayChars (self : SubWrapped) : List Char :=
  self.operation.displayChars

/-- String form of `SubWrapped.displayChars`. -/
def SubWrapped.display (self : SubWrapped) : String :=
  String.mk self.displayChars

/-- Consume an expected token from the head of the input. -/
def expectToken : List Char → List Char → Option (List Char)
  | [], cs => some cs
  | _ :: _, [] => none
  | t :: ts, c :: cs => if c = t then expectToken ts cs else none

/-- Parse a canonical decimal numeral (maximal digit run, exact canonical
form: display is the exact inverse of parse per spec section 4.2). -/
def parseNat (cs : List Char) : Option (Nat × List Char) :=
  if (cs.takeWhile isDigitC).isEmpty then none
  else if natChars (digitsVal (cs.takeWhile isDigitC)) = cs.takeWhile isDigitC then
    some (digitsVal (cs.takeWhile isDigitC), cs.dropWhile isDigitC)
  else none

/-- Parse a mode token. -/
def parseMode (cs : List Char) : Option (Mode × List Char) :=
  match expectToken "constant".data cs with
  | some rest => some (.Constant, rest)
  | none =>
  match expectToken "public".data cs with
  | some rest => some (.Public, rest)
  | none =>
  match expectToken "private".data cs with
  | some rest => some (.Private, rest)
  | none => none

/-- Parse `.<mode>`. -/
def parseDotMode (cs : List Char) : Option (Mode × List Char) :=
  match cs with
  | c :: cs1 => if c = '.' then parseMode cs1 else none
  | [] => none

/-- Parse a register, `r<locator>`. -/
def parseRegister (cs : List Char) : Option (Register × List Char) :=
  match cs with
  | c :: cs1 =>
    if c = 'r' then
      match parseNat cs1 with
      | some (n, rest) => some (⟨n⟩, rest)
      | none => none
    else none
  | [] => none

/-- Parse an integer kind suffix token. -/
def parseIntSuffix (cs : List Char) : Option (IntKind × List Char) :=
  match expectToken "i8".data cs with
  | some rest => some (.i8, rest)
  | none =>
  match expectToken "i16".data cs with
  | some rest => some (.i16, rest)
  | none =>
  match expectToken "i32".data cs with
  | some rest => some (.i32, rest)
  | none =>
  match expectToken "i64".data cs with
  | some rest => some (.i64, rest)
  | none =>
  match expectToken "i128".data cs with
  | some rest => some (.i128, rest)
  | none =>
  match expectToken "u8".data cs with
  | some rest => some (.u8, rest)
  | none =>
  match expectToken "u16".data cs with
  | some rest => some (.u16, rest)
  | none =>
  match expectToken "u32".data cs with
  | some rest => some (.u32, rest)
  | none =>
  match expectToken "u64".data cs with
  | some rest => some (.u64, rest)
  | none =>
  match expectToken "u128".data cs with
  | some rest => some (.u128, rest)
  | none => none

/-- The signed value of a numeral with an optional leading minus sign. -/
def intVal (neg : Bool) (n : Nat) : Int :=
  if neg then -(n : Int) else (n : Int)

/-- Boolean form of `IntKind.inRange`, used by the parser's range guard. -/
def IntKind.inRangeB (k : IntKind) (x : Int) : Bool :=
  decide (k.minVal ≤ x) && decide (x ≤ k.maxVal)

/-- Parse the remainder of a numeric literal after its digits: a kind suffix
(integer, field or group) and `.<mode>`.  `neg` records a leading minus sign
(admitted only for signed integer kinds) and `n` the numeral's value. -/
def parseNumericLiteral (neg : Bool) (n : Nat) (cs : List Char) :
    Option (Literal × List Char) :=
  match parseIntSuffix cs with
  | some (k, cs1) =>
    if neg && !k.signed then none
    else if k.inRangeB (intVal neg n) then
      match parseDotMode cs1 with
      | some (m, rest) => some (k.mkLit (intVal neg n) m, rest)
      | none => none
    else none
  | none =>
  match expectToken "field".data cs with
  | some cs1 =>
    if neg then none
    else
      match parseDotMode cs1 with
      | some (m, rest) => some (.Field n m, rest)
      | none => none
  | none =>
  match expectToken "group".data cs with
  | some cs1 =>
    if neg then none
    else
      match parseDotMode cs1 with
      | some (m, rest) => some (.Group n m, rest)
      | none => none
  | none => none

/-- Whether a character may appear in an address body. -/
def isAddrC (c : Char) : Bool := isDigitC c || (97 ≤ c.toNat && c.toNat ≤ 122)

/-- Parse a literal, `<value><kind-suffix>.<mode>`. -/
def parseLiteral (cs : List Char) : Option (Literal × List Char) :=
  match cs with
  | [] => none
  | c :: cs1 =>
    if c = quoteC then
      match cs1.dropWhile (fun x => x != quoteC) with
      | c2 :: cs2 =>
        if c2 = quoteC then
          match parseDotMode cs2 with
          | some (m, rest) =>
            some (.String (cs1.takeWhile (fun x => x != quoteC)) m, rest)
          | none => none
        else none
      | [] => none
    else
      match expectToken "true".data (c :: cs1) with
      | some rest1 =>
        match parseDotMode rest1 with
        | some (m, rest) => some (.Boolean true m, rest)
        | none => none
      | none =>
      match expectToken "false".data (c :: cs1) with
      | some rest1 =>
        match parseDotMode rest1 with
        | some (m, rest) => some (.Boolean false m, rest)
        | none => none
      | none =>
      match expectToken "aleo1".data (c :: cs1) with
      | some rest1 =>
        if (rest1.takeWhile isAddrC).isEmpty then none
        else
          match parseDotMode (rest1.dropWhile isAddrC) with
          | some (m, rest) =>
            some (.Address ("aleo1".data ++ rest1.takeWhile isAddrC) m, rest)
          | none => none
      | none =>
      if c = '-' then
        match parseNat cs1 with
        | some (n, rest1) =>
          if n = 0 then none else parseNumericLiteral true n rest1
        | none => none
      else
        match parseNat (c :: cs1) with
        | some (n, rest1) => parseNumericLiteral false n rest1
        | none => none

/-- Parse an operand: a register reference or an inline literal. -/
def parseOperand (cs : List Char) : Option (Operand × List Char) :=
  match parseRegister cs with
  | some (r, rest) => some (.Register r, rest)
  | none =>
  match parseLiteral cs with
  | some (l, rest) => some (.Literal l, rest)
  | none => none

/-- `BinaryOperation::parse`: `<operand1> <operand2> into <destination>`. -/
def BinaryOperation.parse (cs : List Char) :
    Option (BinaryOperation × List Char) :=
  match parseOperand cs with
  | some (first, cs1) =>
    match cs1 with
    | c :: cs2 =>
      if c = ' ' then
        match parseOperand cs2 with
        | some (second, cs3) =>
          match expectToken " into ".data cs3 with
          | some cs4 =>
            match parseRegister cs4 with
            | some (dest, rest) => some (⟨first, second, dest⟩, rest)
            | none => none
          | none => none
        | none => none
      else none
    | [] => none
  | none => none

/-- `SubWrapped::parse` maps `BinaryOperation::parse`
(line 95 of `sub_wrapped.rs`). -/
def SubWrapped.parseChars (cs : List Char) : Option (SubWrapped × List Char) :=
  match BinaryOperation.parse cs with
  | some (operation, rest) => some (⟨operation⟩, rest)
  | none => none

/-- String form of `SubWrapped.parseChars`. -/
def SubWrapped.parse (s : String) : Option (SubWrapped × String) :=
  match SubWrapped.parseChars s.data with
  | some (inst, rest) => some (inst, String.mk rest)
  | none => none

/-! ## Binary codec

Modelled from the spec: `BinaryOperation`'s `read_le`/`write_le` are not among
the provided sources.  Spec sections 4.2 and 6: a literal is encoded as a kind
discriminant, a little-endian payload and a mode discriminant; an instruction
as its operands in declaration order followed by the destination register,
with no opcode tag in the per-instruction payload. -/

/-- Little-endian base-256 encoding of `n` in exactly `k` bytes. -/
def natToLE : Nat → Nat → List Nat
  | 0, _ => []
  | k + 1, n => n % 256 :: natToLE k (n / 256)

/-- Read a `k`-byte little-endian natural number. -/
def readNatLE : Nat → List Nat → Option (Nat × List Nat)
  | 0, bs => some (0, bs)
  | _ + 1, [] => none
  | k + 1, b :: bs =>
    match readNatLE k bs with
    | some (n, rest) => some (b + 256 * n, rest)
    | none => none

/-- Encode a character sequence, four bytes per character. -/
def writeChars : List Char → List Nat
  | [] => []
  | c :: cs => natToLE 4 c.toNat ++ writeChars cs

/-- Read `k` characters, four bytes each. -/
def readChars : Nat → List Nat → Option (List Char × List Nat)
  | 0, bs => some ([], bs)
  | k + 1, bs =>
    match readNatLE 4 bs with
    | some (n, bs1) =>
      match readChars k bs1 with
      | some (cs, rest) => some (Char.ofNat n :: cs, rest)
      | none => none
    | none => none

/-- Mode discriminant. -/
def modeByte : Mode → Nat
  | .Constant => 0
  | .Public => 1
  | .Private => 2

/-- Read a mode discriminant. -/
def readMode (bs : List Nat) : Option (Mode × List Nat) :=
  match bs with
  | b :: rest =>
    if b = 0 then some (.Constant, rest)
    else if b = 1 then some (.Public, rest)
    else if b = 2 then some (.Private, rest)
    else none
  | [] => none

/-- Encode a literal: kind discriminant, payload, mode discriminant.
Variable-size payloads (address, string) carry a four-byte length;
signed integers are stored as their two's-complement residue. -/
def Literal.write_le : Literal → List Nat
  | .Boolean false m => 0 :: 0 :: [modeByte m]
  | .Boolean true m => 0 :: 1 :: [modeByte m]
  | .Address s m => 1 :: (natToLE 4 s.length ++ writeChars s) ++ [modeByte m]
  | .Field n m => 2 :: natToLE 32 n ++ [modeByte m]
  | .Group n m => 3 :: natToLE 32 n ++ [modeByte m]
  | .String s m => 4 :: (natToLE 4 s.length ++ writeChars s) ++ [modeByte m]
  | .I8 v m => 5 :: natToLE 1 (wrapU 8 v) ++ [modeByte m]
  | .I16 v m => 6 :: natToLE 2 (wrapU 16 v) ++ [modeByte m]
  | .I32 v m => 7 :: natToLE 4 (wrapU 32 v) ++ [modeByte m]
  | .I64 v m => 8 :: natToLE 8 (wrapU 64 v) ++ [modeByte m]
  | .I128 v m => 9 :: natToLE 16 (wrapU 128 v) ++ [modeByte m]
  | .U8 v m => 10 :: natToLE 1 v ++ [modeByte m]
  | .U16 v m => 11 :: natToLE 2 v ++ [modeByte m]
  | .U32 v m => 12 :: natToLE 4 v ++ [modeByte m]
  | .U64 v m => 13 :: natToLE 8 v ++ [modeByte m]
  | .U128 v m => 14 :: natToLE 16 v ++ [modeByte m]

/-- Read a `k`-byte unsigned payload and a mode, building a literal with `f`. -/
def readFixed (k : Nat) (f : Nat → Mode → Literal) (bs : List Nat) :
    Option (Literal × List Nat) :=
  match readNatLE k bs with
  | some (n, bs2) =>
    match readMode bs2 with
    | some (m, rest) => some (f n m, rest)
    | none => none
  | none => none

/-- Read a length-prefixed character payload and a mode, building a literal
with `f`. -/
def readCharsPayload (f : List Char → Mode → Literal) (bs : List Nat) :
    Option (Literal × List Nat) :=
  match readNatLE 4 bs with
  | some (len, bs2) =>
    match readChars len bs2 with
    | some (s, bs3) =>
      match readMode bs3 with
      | some (m, rest) => some (f s m, rest)
      | none => none
    | none => none
  | none => none

/-- Decode a literal: read the kind discriminant, then exactly that kind's
payload, then the mode discriminant. -/
def Literal.read_le (bs : List Nat) : Option (Literal × List Nat) :=
  match bs with
  | [] => none
  | t :: bs1 =>
    if t = 0 then
      match bs1 with
      | b :: bs2 =>
        (match readMode bs2 with
         | some (m, rest) =>
           if b = 0 then some (.Boolean false m, rest)
           else if b = 1 then some (.Boolean true m, rest)
           else none
         | none => none)
      | [] => none
    else if t = 1 then readCharsPayload .Address bs1
    else if t = 2 then readFixed 32 .Field bs1
    else if t = 3 then readFixed 32 .Group bs1
    else if t = 4 then readCharsPayload .String bs1
    else if t = 5 then readFixed 1 (fun n m => .I8 (sInterp 8 n) m) bs1
    else if t = 6 then readFixed 2 (fun n m => .I16 (sInterp 16 n) m) bs1
    else if t = 7 then readFixed 4 (fun n m => .I32 (sInterp 32 n) m) bs1
    else if t = 8 then readFixed 8 (fun n m => .I64 (sInterp 64 n) m) bs1
    else if t = 9 then readFixed 16 (fun n m => .I128 (sInterp 128 n) m) bs1
    else if t = 10 then readFixed 1 .U8 bs1
    else if t = 11 then readFixed 2 .U16 bs1
    else if t = 12 then readFixed 4 .U32 bs1
    else if t = 13 then readFixed 8 .U64 bs1
    else if t = 14 then readFixed 16 .U128 bs1
    else none

/-- Encode an operand: a variant tag, then the register locator or the
literal. -/
def Operand.write_le : Operand → List Nat
  | .Register r => 0 :: natToLE 4 r.locator
  | .Literal l => 1 :: l.write_le

/-- Decode an operand. -/
def Operand.read_le (bs : List Nat) : Option (Operand × List Nat) :=
  match bs with
  | [] => none
  | t :: bs1 =>
    if t = 0 then
      match readNatLE 4 bs1 with
      | some (n, rest) => some (.Register ⟨n⟩, rest)
      | none => none
    else if t = 1 then
      match Literal.read_le bs1 with
      | some (l, rest) => some (.Literal l, rest)
      | none => none
    else none

/-- Encode a binary operation: operands in declaration order, then the
destination register. -/
def BinaryOperation.write_le (op : BinaryOperation) : List Nat :=
  op.first.write_le ++ op.second.write_le ++ natToLE 4 op.destination.locator

/-- Decode a binary operation. -/
def BinaryOperation.read_le (bs : List Nat) :
    Option (BinaryOperation × List Nat) :=
  match Operand.read_le bs with
  | some (first, bs1) =>
    match Operand.read_le bs1 with
    | some (second, bs2) =>
      match readNatLE 4 bs2 with
      | some (n, rest) => some (⟨first, second, ⟨n⟩⟩, rest)
      | none => none
    | none => none
  | none => none

/-- `ToBytes for SubWrapped` writes its operation
(lines 111-115 of `sub_wrapped.rs`). -/
def SubWrapped.write_le (self : SubWrapped) : List Nat :=
  self.operation.write_le

/-- `FromBytes for SubWrapped` reads a `BinaryOperation`
(lines 105-109 of `sub_wrapped.rs`). -/
def SubWrapped.read_le (bs : List Nat) : Option (SubWrapped × List Nat) :=
  match BinaryOperation.read_le bs with
  | some (operation, rest) => some (⟨operation⟩, rest)
  | none => none

/-- A literal is well formed when its value fits its kind's representation
(integer values in range, lengths and abstract field representations within
their payload widths) — exactly the values the Rust types can hold. -/
def Literal.wellFormed : Literal → Bool
  | .Boolean _ _ => true
  | .Address s _ => decide (s.length < 2 ^ 32)
  | .Field n _ => decide (n < 2 ^ 256)
  | .Group n _ => decide (n < 2 ^ 256)
  | .String s _ => decide (s.length < 2 ^ 32)
  | .I8 v _ => decide (IntKind.i8.inRange v)
  | .I16 v _ => decide (IntKind.i16.inRange v)
  | .I32 v _ => decide (IntKind.i32.inRange v)
  | .I64 v _ => decide (IntKind.i64.inRange v)
  | .I128 v _ => decide (IntKind.i128.inRange v)
  | .U8 v _ => decide (v < 2 ^ 8)
  | .U16 v _ => decide (v < 2 ^ 16)
  | .U32 v _ => decide (v < 2 ^ 32)
  | .U64 v _ => decide (v < 2 ^ 64)
  | .U128 v _ => decide (v < 2 ^ 128)

/-- An operand is well formed when its register locator fits 32 bits or its
literal is well formed. -/
def Operand.wellFormed : Operand → Bool
  | .Register r => decide (r.locator < 2 ^ 32)
  | .Literal l => l.wellFormed

/-- A `sub.w` instruction is well formed when its operands and destination
are. -/
def SubWrapped.wellFormed (self : SubWrapped) : Bool :=
  self.operation.first.wellFormed && self.operation.second.wellFormed
    && decide (self.operation.destination.locator < 2 ^ 32)

/-! ## Circuit field `One` (`src/circuits/src/field/one.rs`) -/

namespace Circuits

/-- Modelled from the spec: the element representation of the external
environment field `E::Field` is abstracted as a natural number; `envOne`
stands for `E::Field::one()`, its multiplicative identity
(spec sections 1 and 6: the field arithmetic library is an external
collaborator, interfaces only). -/
def envOne : Nat := 1

/-- A circuit field element, `Field<E>` of the circuits crate: a visibility
mode and an underlying environment field element. -/
structure Field where
  mode : Mode
  value : Nat
deriving DecidableEq

/-- `Field::new(mode, value)`. -/
def Field.new (mode : Mode) (value : Nat) : Field := ⟨mode, value⟩

/-- `One for Field::one()` (lines 23-25 of `one.rs`):
`Field::new(Mode::Constant, E::Field::one())`. -/
def Field.one : Field := Field.new Mode.Constant envOne

/-- `One for Field::is_one` (lines 27-31 of `one.rs`): the body is
`unimplemented!()`, so the call never produces a result.  The panic is
modelled as `none`; a normal `Result` return would be `some`. -/
def Field.is_one (_ : Field) : Option Bool := none

end Circuits

/-! ## Arithmetic and dispatch lemmas -/

set_option maxRecDepth 10000 in
/-- For every integer kind, wrapping `MIN - 1` yields `MAX`. -/
theorem IntKind.wrap_min_sub_one (k : IntKind) :
    k.wrap (k.minVal - 1) = k.maxVal := by
  cases k <;> decide

/-- The kind dispatch of `SubWrapped::evaluate` on two literals of the same
integer kind produces the wrapped difference in that kind. -/
theorem subWrappedLit_mkLit (k : IntKind) (a b : Int) (ma mb : Mode)
    (ha : k.inRange a) (hb : k.inRange b) :
    subWrappedLit (k.mkLit a ma) (k.mkLit b mb) =
      some (k.mkLit (k.wrap (a - b)) (combineMode ma mb)) := by
  have ha1 : k.minVal ≤ a := ha.1
  have hb1 : k.minVal ≤ b := hb.1
  cases k
  case i8 => rfl
  case i16 => rfl
  case i32 => rfl
  case i64 => rfl
  case i128 => rfl
  case u8 =>
    show some (Literal.U8 (wrapU 8 ((a.toNat : Int) - (b.toNat : Int))) _) =
      some (Literal.U8 ((wrapU 8 (a - b) : Nat) : Int).toNat _)
    rw [Int.toNat_of_nonneg ha1, Int.toNat_of_nonneg hb1, Int.toNat_natCast]
  case u16 =>
    show some (Literal.U16 (wrapU 16 ((a.toNat : Int) - (b.toNat : Int))) _) =
      some (Literal.U16 ((wrapU 16 (a - b) : Nat) : Int).toNat _)
    rw [Int.toNat_of_nonneg ha1, Int.toNat_of_nonneg hb1, Int.toNat_natCast]
  case u32 =>
    show some (Literal.U32 (wrapU 32 ((a.toNat : Int) - (b.toNat : Int))) _) =
      some (Literal.U32 ((wrapU 32 (a - b) : Nat) : Int).toNat _)
    rw [Int.toNat_of_nonneg ha1, Int.toNat_of_nonneg hb1, Int.toNat_natCast]
  case u64 =>
    show some (Literal.U64 (wrapU 64 ((a.toNat : Int) - (b.toNat : Int))) _) =
      some (Literal.U64 ((wrapU 64 (a - b) : Nat) : Int).toNat _)
    rw [Int.toNat_of_nonneg ha1, Int.toNat_of_nonneg hb1, Int.toNat_natCast]
  case u128 =>
    show some (Literal.U128 (wrapU 128 ((a.toNat : Int) - (b.toNat : Int))) _) =
      some (Literal.U128 ((wrapU 128 (a - b) : Nat) : Int).toNat _)
    rw [Int.toNat_of_nonneg ha1, Int.toNat_of_nonneg hb1, Int.toNat_natCast]

/-- The kind dispatch of `SubWrapped::evaluate` falls through to the halting
arm exactly when the two literals are not integers of the identical kind. -/
theorem subWrappedLit_eq_none (a b : Literal)
    (h : ¬(a.kind = b.kind ∧ a.kind.isInteger = true)) :
    subWrappedLit a b = none := by
  cases a <;> cases b <;> first | rfl | exact absurd ⟨rfl, rfl⟩ h

/-! ## Register-file lemmas -/

/-- Assigning a defined register succeeds and performs a pointwise update. -/
theorem Registers.assign_of_defined (regs : Registers) (r : Register)
    (v : Value) (w : Option Value) (h : regs r = some w) :
    regs.assign r v =
      .ok (fun x => if x = r then some (some v) else regs x) := by
  unfold Registers.assign
  rw [h]

/-- A successful assignment leaves every other register's entry unchanged. -/
theorem Registers.assign_other (regs regs' : Registers) (r : Register)
    (v : Value) (h : regs.assign r v = .ok regs') (x : Register)
    (hx : x ≠ r) : regs' x = regs x := by
  unfold Registers.assign at h
  split at h
  · injection h with h'
    subst h'
    simp [hx]
  · cases h

/-! ## Concrete inputs used by the witnesses -/

/-- The instruction with operand registers r0, r1 and destination r2
(`sub.w r0 r1 into r2`). -/
def instR012 : SubWrapped :=
  ⟨⟨Operand.Register ⟨0⟩, Operand.Register ⟨1⟩, ⟨2⟩⟩⟩

/-- Register file holding `0u8.constant` in r0, `1u8.constant` in r1, with r2
defined but unassigned. -/
def regsU8W : Registers := fun r =>
  if r = ⟨0⟩ then some (some (Value.Literal (Literal.U8 0 Mode.Constant)))
  else if r = ⟨1⟩ then some (some (Value.Literal (Literal.U8 1 Mode.Constant)))
  else if r = ⟨2⟩ then some none
  else none

/-- The composite value named `message` of the repository's composite test. -/
def valMessage : Value :=
  Value.Composite "message"
    [Literal.Group 2 Mode.Public, Literal.Field 10 Mode.Private]

/-- Register file holding the composite `message` in both r0 and r1, with r2
defined but unassigned. -/
def regsCompW : Registers := fun r =>
  if r = ⟨0⟩ then some (some valMessage)
  else if r = ⟨1⟩ then some (some valMessage)
  else if r = ⟨2⟩ then some none
  else none

/-- Register file holding `true.constant` in both r0 and r1, with r2 defined
but unassigned. -/
def regsBoolW : Registers := fun r =>
  if r = ⟨0⟩ then some (some (Value.Literal (Literal.Boolean true Mode.Constant)))
  else if r = ⟨1⟩ then some (some (Value.Literal (Literal.Boolean true Mode.Constant)))
  else if r = ⟨2⟩ then some none
  else none

/-- Register file holding the composite `message` in r0 and a composite named
`other` in r1, with r2 defined but unassigned. -/
def regsTwoCompW : Registers := fun r =>
  if r = ⟨0⟩ then some (some valMessage)
  else if r = ⟨1⟩ then some (some (Value.Composite "other" [Literal.Field 10 Mode.Private]))
  else if r = ⟨2⟩ then some none
  else none

/-! ## Claim theorems -/

/-- C1: for every integer kind K and every in-range pair (a, b) held in the
operand registers, evaluating `sub.w` assigns to the destination a literal of
the same kind K whose value is `(a - b) mod 2 ^ width` reinterpreted in K's
signedness; and for every kind, the operand pair (MIN, 1) yields MAX. -/
theorem subWrapped_evaluate_wraps (k : IntKind) (a b : Int) (ma mb : Mode)
    (ra rb rd : Register) (regs : Registers) (w : Option Value)
    (h1 : Registers.load regs (Operand.Register ra) =
      Except.ok (Value.Literal (k.mkLit a ma)))
    (h2 : Registers.load regs (Operand.Register rb) =
      Except.ok (Value.Literal (k.mkLit b mb)))
    (hd : regs rd = some w)
    (ha : k.inRange a) (hb : k.inRange b) :
    (∃ regs',
      SubWrapped.evaluate ⟨⟨Operand.Register ra, Operand.Register rb, rd⟩⟩ regs =
        (Except.ok (), regs') ∧
      ∃ m, Registers.load regs' (Operand.Register rd) =
        Except.ok (Value.Literal (k.mkLit (k.wrap (a - b)) m))) ∧
    ∀ k' : IntKind, k'.wrap (k'.minVal - 1) = k'.maxVal := by
  constructor
  · refine ⟨fun x => if x = rd then
        some (some (Value.Literal (k.mkLit (k.wrap (a - b)) (combineMode ma mb))))
      else regs x, ?_, combineMode ma mb, ?_⟩
    · simp only [SubWrapped.evaluate, h1, h2,
        subWrappedLit_mkLit k a b ma mb ha hb,
        Registers.assign_of_defined regs rd _ w hd]
    · simp [Registers.load, Registers.loadRegister]
  · exact IntKind.wrap_min_sub_one

/-- Witness for C1 at kind U8 with operand values (0, 1). -/
theorem subWrapped_evaluate_wraps_witness :
    (∃ regs',
      SubWrapped.evaluate ⟨⟨Operand.Register ⟨0⟩, Operand.Register ⟨1⟩, ⟨2⟩⟩⟩ regsU8W =
        (Except.ok (), regs') ∧
      ∃ m, Registers.load regs' (Operand.Register ⟨2⟩) =
        Except.ok (Value.Literal (IntKind.u8.mkLit (IntKind.u8.wrap (0 - 1)) m))) ∧
    ∀ k' : IntKind, k'.wrap (k'.minVal - 1) = k'.maxVal :=
  subWrapped_evaluate_wraps IntKind.u8 0 1 Mode.Constant Mode.Constant
    ⟨0⟩ ⟨1⟩ ⟨2⟩ regsU8W none rfl rfl rfl (by decide) (by decide)

/-- The end-to-end register setup of C2 built through the register-file API:
define r0, r1, r2; assign r0 := `0u8.constant`, r1 := `1u8.constant`. -/
def setupC2 : Except Fault Registers :=
  (Registers.empty.define ⟨0⟩).bind fun regs =>
    (regs.define ⟨1⟩).bind fun regs =>
      (regs.define ⟨2⟩).bind fun regs =>
        (regs.assign ⟨0⟩ (Value.Literal (Literal.U8 0 Mode.Constant))).bind fun regs =>
          regs.assign ⟨1⟩ (Value.Literal (Literal.U8 1 Mode.Constant))

/-- C2: with r0 = `0u8.constant`, r1 = `1u8.constant` and r2 defined,
evaluating `sub.w r0 r1 into r2` assigns `255u8.constant` to r2
(constant combined with constant yields constant). -/
theorem subWrapped_end_to_end :
    ∃ regs regs',
      setupC2 = Except.ok regs ∧
      SubWrapped.evaluate instR012 regs = (Except.ok (), regs') ∧
      Registers.load regs' (Operand.Register ⟨2⟩) =
        Except.ok (Value.Literal (Literal.U8 255 Mode.Constant)) :=
  ⟨_, _, rfl, rfl, rfl⟩

/-- C3: if either operand of a `sub.w` instruction resolves to a composite,
evaluation halts with a fault whose message contains that composite's
identifier, and does not complete normally. -/
theorem subWrapped_composite_fault (self : SubWrapped) (regs : Registers)
    (v1 v2 : Value)
    (h1 : Registers.load regs self.operation.first = Except.ok v1)
    (h2 : Registers.load regs self.operation.second = Except.ok v2)
    (hc : (∃ n args, v1 = Value.Composite n args) ∨
      (∃ n args, v2 = Value.Composite n args)) :
    ∃ name,
      ((∃ args, v1 = Value.Composite name args) ∨
        (∃ args, v2 = Value.Composite name args)) ∧
      (SubWrapped.evaluate self regs).1 =
        Except.error (Fault.halt (name ++ compositeMsgSuffix)) := by
  cases v1 with
  | Composite n args =>
    refine ⟨n, Or.inl ⟨args, rfl⟩, ?_⟩
    unfold SubWrapped.evaluate
    rw [h1]
  | Literal l =>
    rcases hc with ⟨n, args, heq⟩ | ⟨n, args, heq⟩
    · cases heq
    · subst heq
      refine ⟨n, Or.inr ⟨args, rfl⟩, ?_⟩
      unfold SubWrapped.evaluate
      rw [h1, h2]

/-- Witness for C3: both operands hold the composite `message`. -/
theorem subWrapped_composite_fault_witness :
    ∃ name,
      ((∃ args, valMessage = Value.Composite name args) ∨
        (∃ args, valMessage = Value.Composite name args)) ∧
      (SubWrapped.evaluate instR012 regsCompW).1 =
        Except.error (Fault.halt (name ++ compositeMsgSuffix)) :=
  subWrapped_composite_fault instR012 regsCompW valMessage valMessage rfl rfl
    (Or.inl ⟨"message",
      [Literal.Group 2 Mode.Public, Literal.Field 10 Mode.Private], rfl⟩)

/-- C4: if the two operands of a `sub.w` instruction resolve to literals that
are not both integers of the identical kind and width, evaluation halts with
a fault whose message names the opcode `sub.w`. -/
theorem subWrapped_invalid_type_fault (self : SubWrapped) (regs : Registers)
    (a b : Literal)
    (h1 : Registers.load regs self.operation.first = Except.ok (Value.Literal a))
    (h2 : Registers.load regs self.operation.second = Except.ok (Value.Literal b))
    (hk : ¬(a.kind = b.kind ∧ a.kind.isInteger = true)) :
    (SubWrapped.evaluate self regs).1 = Except.error (Fault.halt invalidSubWMsg) ∧
    ∃ pre post, invalidSubWMsg = pre ++ SubWrapped.opcode ++ post := by
  refine ⟨?_, "Invalid " ++ String.mk [aposC], String.mk [aposC] ++ " instruction", ?_⟩
  · unfold SubWrapped.evaluate
    rw [h1, h2]
    simp only [subWrappedLit_eq_none a b hk]
  · apply String.ext
    simp [invalidSubWMsg, String.data_append]

/-- Witness for C4: both operands hold `true.constant`. -/
theorem subWrapped_invalid_type_fault_witness :
    (SubWrapped.evaluate instR012 regsBoolW).1 =
      Except.error (Fault.halt invalidSubWMsg) ∧
    ∃ pre post, invalidSubWMsg = pre ++ SubWrapped.opcode ++ post :=
  subWrapped_invalid_type_fault instR012 regsBoolW
    (Literal.Boolean true Mode.Constant) (Literal.Boolean true Mode.Constant)
    rfl rfl (by decide)

/-- C5: whenever evaluation of a `sub.w` instruction halts with a fault, the
destination register's entry is exactly what it was before evaluation began:
no partial write happens. -/
theorem subWrapped_fault_no_partial_write (self : SubWrapped)
    (regs : Registers) (f : Fault) (regs' : Registers)
    (h : SubWrapped.evaluate self regs = (Except.error f, regs')) :
    regs' self.operation.destination = regs self.operation.destination := by
  suffices hr : regs' = regs by rw [hr]
  unfold SubWrapped.evaluate at h
  split at h
  · exact (congrArg Prod.snd h).symm
  · exact (congrArg Prod.snd h).symm
  · split at h
    · exact (congrArg Prod.snd h).symm
    · exact (congrArg Prod.snd h).symm
    · split at h
      · exact (congrArg Prod.snd h).symm
      · split at h
        · exact (congrArg Prod.snd h).symm
        · exact absurd (congrArg Prod.fst h) (by simp)

/-- Witness for C5: the composite-operand fault leaves r2's entry unchanged. -/
theorem subWrapped_fault_no_partial_write_witness :
    (SubWrapped.evaluate instR012 regsCompW).2 ⟨2⟩ = regsCompW ⟨2⟩ :=
  subWrapped_fault_no_partial_write instR012 regsCompW
    (Fault.halt ("message" ++ compositeMsgSuffix)) _ rfl

/-- C8: evaluating a `sub.w` instruction modifies at most the destination
register: every other register's entry is unchanged. -/
theorem subWrapped_evaluate_frame (self : SubWrapped) (regs : Registers)
    (res : Except Fault Unit) (regs' : Registers)
    (h : SubWrapped.evaluate self regs = (res, regs'))
    (r : Register) (hr : r ≠ self.operation.destination) :
    regs' r = regs r := by
  unfold SubWrapped.evaluate at h
  split at h
  · exact congrFun (congrArg Prod.snd h).symm r
  · exact congrFun (congrArg Prod.snd h).symm r
  · split at h
    · exact congrFun (congrArg Prod.snd h).symm r
    · exact congrFun (congrArg Prod.snd h).symm r
    · split at h
      · exact congrFun (congrArg Prod.snd h).symm r
      · split at h
        · exact congrFun (congrArg Prod.snd h).symm r
        · rename_i regs2 hassign
          have h2 : regs2 = regs' := congrArg Prod.snd h
          rw [← h2]
          exact Registers.assign_other regs regs2 self.operation.destination
            _ hassign r hr

/-- Witness for C8: after a successful evaluation into r2, r0 is unchanged. -/
theorem subWrapped_evaluate_frame_witness :
    (SubWrapped.evaluate instR012 regsU8W).2 ⟨0⟩ = regsU8W ⟨0⟩ :=
  subWrapped_evaluate_frame instR012 regsU8W _ _ rfl ⟨0⟩ (by decide)

/-- C9: operand faults are checked in operand order: if the first operand
resolves to a composite, evaluation halts naming the first operand's
identifier, whatever the second operand holds; messages built from distinct
identifiers are distinct. -/
theorem subWrapped_first_composite_first_fault (self : SubWrapped)
    (regs : Registers) (name : String) (args : List Literal)
    (h1 : Registers.load regs self.operation.first =
      Except.ok (Value.Composite name args)) :
    SubWrapped.evaluate self regs =
      (Except.error (Fault.halt (name ++ compositeMsgSuffix)), regs) ∧
    ∀ other : String, other ≠ name →
      Fault.halt (name ++ compositeMsgSuffix) ≠
        Fault.halt (other ++ compositeMsgSuffix) := by
  constructor
  · unfold SubWrapped.evaluate
    rw [h1]
  · intro other hne heq
    apply hne
    have h2 : name ++ compositeMsgSuffix = other ++ compositeMsgSuffix := by
      injection heq
    have h3 : name.data ++ compositeMsgSuffix.data =
        other.data ++ compositeMsgSuffix.data := by
      rw [← String.data_append, ← String.data_append, h2]
    exact (String.ext (List.append_cancel_right h3)).symm

/-- Witness for C9: r0 holds the composite `message`, r1 a composite named
`other`; the fault names `message`, the first operand's identifier. -/
theorem subWrapped_first_composite_first_fault_witness :
    SubWrapped.evaluate instR012 regsTwoCompW =
      (Except.error (Fault.halt ("message" ++ compositeMsgSuffix)), regsTwoCompW) ∧
    ∀ other : String, other ≠ "message" →
      Fault.halt ("message" ++ compositeMsgSuffix) ≠
        Fault.halt (other ++ compositeMsgSuffix) :=
  subWrapped_first_composite_first_fault instR012 regsTwoCompW "message"
    [Literal.Group 2 Mode.Public, Literal.Field 10 Mode.Private] rfl

/-- C10: for every circuit field element, `is_one` never returns a result
(its body is unimplemented), while `one()` succeeds and constructs a
constant-mode field element holding the environment field's multiplicative
identity. -/
theorem field_is_one_unimplemented (f : Circuits.Field) :
    Circuits.Field.is_one f = none ∧
    Circuits.Field.one.mode = Mode.Constant ∧
    Circuits.Field.one.value = Circuits.envOne :=
  ⟨rfl, rfl, rfl⟩

/-! ## Parser soundness: a parsed text is the display of the result followed
by the unconsumed remainder -/

/-- Consuming a token decomposes the input. -/
theorem expectToken_sound (tok : List Char) :
    ∀ cs rest, expectToken tok cs = some rest → cs = tok ++ rest := by
  induction tok with
  | nil =>
    intro cs rest h
    have h' : cs = rest := Option.some.inj h
    simp [h']
  | cons t ts ih =>
    intro cs rest h
    cases cs with
    | nil => cases h
    | cons c cs' =>
      unfold expectToken at h
      split at h
      · rename_i hct
        subst hct
        simp [ih cs' rest h]
      · cases h

/-- A parsed numeral decomposes the input into its canonical digits and the
remainder. -/
theorem parseNat_sound (cs : List Char) (n : Nat) (rest : List Char)
    (h : parseNat cs = some (n, rest)) : cs = natChars n ++ rest := by
  unfold parseNat at h
  split at h
  · cases h
  · split at h
    · rename_i hcanon
      injection h with h'
      have hn : digitsVal (cs.takeWhile isDigitC) = n := congrArg Prod.fst h'
      have hr : cs.dropWhile isDigitC = rest := congrArg Prod.snd h'
      rw [← hn, ← hr, hcanon]
      exact (List.takeWhile_append_dropWhile isDigitC cs).symm
    · cases h

/-- A parsed mode decomposes the input into the mode's text and the
remainder. -/
theorem parseMode_sound (cs : List Char) (m : Mode) (rest : List Char)
    (h : parseMode cs = some (m, rest)) : cs = modeChars m ++ rest := by
  unfold parseMode at h
  split at h
  · rename_i r1 heq
    cases Option.some.inj h
    exact expectToken_sound _ _ _ heq
  · split at h
    · rename_i r1 heq
      cases Option.some.inj h
      exact expectToken_sound _ _ _ heq
    · split at h
      · rename_i r1 heq
        cases Option.some.inj h
        exact expectToken_sound _ _ _ heq
      · cases h

/-- A parsed `.<mode>` decomposes the input. -/
theorem parseDotMode_sound (cs : List Char) (m : Mode) (rest : List Char)
    (h : parseDotMode cs = some (m, rest)) :
    cs = '.' :: modeChars m ++ rest := by
  unfold parseDotMode at h
  split at h
  · rename_i c cs1
    split at h
    · rename_i hc
      subst hc
      simp [parseMode_sound cs1 m rest h]
    · cases h
  · cases h

/-- A parsed register decomposes the input into its display and the
remainder. -/
theorem parseRegister_sound (cs : List Char) (r : Register) (rest : List Char)
    (h : parseRegister cs = some (r, rest)) :
    cs = r.displayChars ++ rest := by
  unfold parseRegister at h
  split at h
  · rename_i c cs1
    split at h
    · rename_i hc
      subst hc
      split at h
      · rename_i n rest1 heq
        cases Option.some.inj h
        simp [Register.displayChars, parseNat_sound _ _ _ heq]
      · cases h
    · cases h
  · cases h

/-- A parsed integer kind suffix decomposes the input into its token and the
remainder. -/
theorem parseIntSuffix_sound (cs : List Char) (k : IntKind) (rest : List Char)
    (h : parseIntSuffix cs = some (k, rest)) : cs = k.token ++ rest := by
  unfold parseIntSuffix at h
  split at h
  · rename_i r1 heq
    cases Option.some.inj h
    exact expectToken_sound _ _ _ heq
  · split at h
    · rename_i r1 heq
      cases Option.some.inj h
      exact expectToken_sound _ _ _ heq
    · split at h
      · rename_i r1 heq
        cases Option.some.inj h
        exact expectToken_sound _ _ _ heq
      · split at h
        · rename_i r1 heq
          cases Option.some.inj h
          exact expectToken_sound _ _ _ heq
        · split at h
          · rename_i r1 heq
            cases Option.some.inj h
            exact expectToken_sound _ _ _ heq
          · split at h
            · rename_i r1 heq
              cases Option.some.inj h
              exact expectToken_sound _ _ _ heq
            · split at h
              · rename_i r1 heq
                cases Option.some.inj h
                exact expectToken_sound _ _ _ heq
              · split at h
                · rename_i r1 heq
                  cases Option.some.inj h
                  exact expectToken_sound _ _ _ heq
                · split at h
                  · rename_i r1 heq
                    cases Option.some.inj h
                    exact expectToken_sound _ _ _ heq
                  · split at h
                    · rename_i r1 heq
                      cases Option.some.inj h
                      exact expectToken_sound _ _ _ heq
                    · cases h

/-- The display of an integer literal built by `mkLit`. -/
theorem mkLit_displayChars (k : IntKind) (v : Int) (m : Mode) :
    (k.mkLit v m).displayChars =
      (if k.signed then intChars v else natChars v.toNat)
        ++ k.token ++ '.' :: modeChars m := by
  cases k <;> rfl

/-- A parsed numeric literal (integer, field or group) decomposes the
numeral's canonical text and the input into the literal's display and the
remainder. -/
theorem parseNumericLiteral_sound (neg : Bool) (n : Nat) (cs : List Char)
    (l : Literal) (rest : List Char)
    (h : parseNumericLiteral neg n cs = some (l, rest))
    (hneg : neg = true → n ≠ 0) :
    (if neg then '-' :: natChars n else natChars n) ++ cs =
      l.displayChars ++ rest := by
  unfold parseNumericLiteral at h
  split at h
  · rename_i k cs1 hsuf
    split at h
    · cases h
    · rename_i hns
      split at h
      · split at h
        · rename_i m rest1 hdot
          cases Option.some.inj h
          rw [parseIntSuffix_sound _ _ _ hsuf, parseDotMode_sound _ _ _ hdot,
            mkLit_displayChars]
          cases neg with
          | false =>
            have hge : ¬((n : Int) < 0) := by omega
            simp [intVal, intChars, hge, List.append_assoc]
          | true =>
            have hsig : k.signed = true := by
              cases hksig : k.signed
              · simp [hksig] at hns
              · rfl
            have hn0 : n ≠ 0 := hneg rfl
            have hlt : (-(n : Int)) < 0 := by omega
            simp [hsig, intVal, intChars, hlt, List.append_assoc]
        · cases h
      · cases h
  · split at h
    · rename_i cs1 hf
      split at h
      · cases h
      · rename_i hnneg
        split at h
        · rename_i m rest1 hdot
          cases Option.some.inj h
          have hnegf : neg = false := by
            cases neg
            · rfl
            · exact absurd rfl hnneg
          subst hnegf
          rw [expectToken_sound _ _ _ hf, parseDotMode_sound _ _ _ hdot]
          simp [Literal.displayChars, List.append_assoc]
        · cases h
    · split at h
      · rename_i cs1 hg
        split at h
        · cases h
        · rename_i hnneg
          split at h
          · rename_i m rest1 hdot
            cases Option.some.inj h
            have hnegf : neg = false := by
              cases neg
              · rfl
              · exact absurd rfl hnneg
            subst hnegf
            rw [expectToken_sound _ _ _ hg, parseDotMode_sound _ _ _ hdot]
            simp [Literal.displayChars, List.append_assoc]
          · cases h
      · cases h

/-- A parsed literal decomposes the input into its display and the
remainder. -/
theorem parseLiteral_sound (cs : List Char) (l : Literal) (rest : List Char)
    (h : parseLiteral cs = some (l, rest)) : cs = l.displayChars ++ rest := by
  unfold parseLiteral at h
  split at h
  · cases h
  · rename_i c cs1
    split at h
    · rename_i hcq
      subst hcq
      split at h
      · rename_i c2 cs2 hdrop
        split at h
        · rename_i hc2
          subst hc2
          split at h
          · rename_i m rest1 hdot
            cases Option.some.inj h
            have hcs1 : cs1 = cs1.takeWhile (fun x => x != quoteC) ++
                (quoteC :: cs2) := by
              conv_lhs => rw [← List.takeWhile_append_dropWhile
                (fun x => x != quoteC) cs1, hdrop]
            conv_lhs => rw [hcs1]
            rw [parseDotMode_sound _ _ _ hdot]
            simp [Literal.displayChars, List.append_assoc]
          · cases h
        · cases h
      · cases h
    · split at h
      · rename_i rest1 htok
        split at h
        · rename_i m rest2 hdot
          cases Option.some.inj h
          rw [expectToken_sound _ _ _ htok, parseDotMode_sound _ _ _ hdot]
          simp [Literal.displayChars, List.append_assoc]
        · cases h
      · split at h
        · rename_i rest1 htok
          split at h
          · rename_i m rest2 hdot
            cases Option.some.inj h
            rw [expectToken_sound _ _ _ htok, parseDotMode_sound _ _ _ hdot]
            simp [Literal.displayChars, List.append_assoc]
          · cases h
        · split at h
          · rename_i rest1 htok
            split at h
            · cases h
            · rename_i hbody
              split at h
              · rename_i m rest2 hdot
                cases Option.some.inj h
                rw [expectToken_sound _ _ _ htok]
                have hr1 : rest1 = rest1.takeWhile isAddrC ++
                    (('.' :: modeChars m) ++ rest) := by
                  conv_lhs => rw [← List.takeWhile_append_dropWhile isAddrC rest1]
                  rw [parseDotMode_sound _ _ _ hdot]
                conv_lhs => rw [hr1]
                simp [Literal.displayChars, List.append_assoc]
              · cases h
          · split at h
            · rename_i hcm
              subst hcm
              split at h
              · rename_i n rest1 hnat
                split at h
                · cases h
                · rename_i hn0
                  have hmain := parseNumericLiteral_sound true n rest1 l rest h
                    (fun _ => hn0)
                  rw [parseNat_sound _ _ _ hnat]
                  simpa [List.append_assoc] using hmain
              · cases h
            · split at h
              · rename_i n rest1 hnat
                have hmain := parseNumericLiteral_sound false n rest1 l rest h
                  (by simp)
                rw [parseNat_sound _ _ _ hnat]
                simpa [List.append_assoc] using hmain
              · cases h

/-- A parsed operand decomposes the input into its display and the
remainder. -/
theorem parseOperand_sound (cs : List Char) (op : Operand) (rest : List Char)
    (h : parseOperand cs = some (op, rest)) :
    cs = op.displayChars ++ rest := by
  unfold parseOperand at h
  split at h
  · rename_i r rest1 hreg
    cases Option.some.inj h
    exact parseRegister_sound _ _ _ hreg
  · split at h
    · rename_i l rest1 hlit
      cases Option.some.inj h
      exact parseLiteral_sound _ _ _ hlit
    · cases h

/-- A parsed binary operation decomposes the input into its display and the
remainder. -/
theorem binaryOperation_parse_sound (cs : List Char) (op : BinaryOperation)
    (rest : List Char) (h : BinaryOperation.parse cs = some (op, rest)) :
    cs = op.displayChars ++ rest := by
  unfold BinaryOperation.parse at h
  split at h
  · rename_i first cs1 hop1
    split at h
    · rename_i c cs2
      split at h
      · rename_i hsp
        subst hsp
        split at h
        · rename_i second cs3 hop2
          split at h
          · rename_i cs4 hinto
            split at h
            · rename_i dest rest1 hdest
              cases Option.some.inj h
              rw [parseOperand_sound _ _ _ hop1, parseOperand_sound _ _ _ hop2,
                expectToken_sound _ _ _ hinto, parseRegister_sound _ _ _ hdest]
              simp [BinaryOperation.displayChars, List.append_assoc]
            · cases h
          · cases h
        · cases h
      · cases h
    · cases h
  · cases h

/-- A parsed `sub.w` instruction decomposes the input into its display and
the remainder. -/
theorem SubWrapped.parseChars_sound (cs : List Char) (inst : SubWrapped)
    (rest : List Char) (h : SubWrapped.parseChars cs = some (inst, rest)) :
    cs = inst.displayChars ++ rest := by
  unfold SubWrapped.parseChars at h
  split at h
  · rename_i operation rest1 hop
    cases Option.some.inj h
    exact binaryOperation_parse_sound _ _ _ hop
  · cases h

/-! ## Codec round trip -/

/-- Reading back a `k`-byte little-endian encoding recovers the value. -/
theorem readNatLE_natToLE (k : Nat) :
    ∀ n rest, n < 256 ^ k → readNatLE k (natToLE k n ++ rest) = some (n, rest) := by
  induction k with
  | zero =>
    intro n rest hn
    have h0 : (256:Nat) ^ 0 = 1 := pow_zero 256
    have : n = 0 := by omega
    subst this
    rfl
  | succ k ih =>
    intro n rest hn
    have hdiv : n / 256 < 256 ^ k := by
      rw [Nat.div_lt_iff_lt_mul (by norm_num)]
      calc n < 256 ^ (k + 1) := hn
        _ = 256 ^ k * 256 := by rw [pow_succ]
    simp [natToLE, readNatLE, ih (n / 256) rest hdiv]
    omega

/-- The same, with the bound stated at the bit width `8 * k`. -/
theorem readNatLE_natToLE_pow2 (k n : Nat) (h : n < 2 ^ (8 * k)) :
    ∀ rest, readNatLE k (natToLE k n ++ rest) = some (n, rest) := by
  intro rest
  apply readNatLE_natToLE
  calc n < 2 ^ (8 * k) := h
    _ = 256 ^ k := by rw [pow_mul]; norm_num

/-- The unsigned residue is below `2 ^ w`. -/
theorem wrapU_lt (w : Nat) (x : Int) : wrapU w x < 2 ^ w := by
  unfold wrapU
  have hpos : (0:Int) < 2 ^ w := by positivity
  have h1 : 0 ≤ x % 2 ^ w := Int.emod_nonneg x (ne_of_gt hpos)
  have h2 : x % 2 ^ w < 2 ^ w := Int.emod_lt_of_pos x hpos
  have hcast : ((2 ^ w : Nat) : Int) = (2 : Int) ^ w := by push_cast; ring
  omega

/-- Two's-complement round trip: reinterpreting the unsigned residue of an
in-range signed value recovers the value. -/
theorem sInterp_wrapU (w : Nat) (x : Int)
    (h1 : -((2:Int) ^ (w - 1)) <= x) (h2 : x < (2:Int) ^ (w - 1))
    (hw : 0 < w) : sInterp w (wrapU w x) = x := by
  have hsplit : (2:Int) ^ w = 2 ^ (w - 1) * 2 := by
    conv_lhs => rw [show w = (w - 1) + 1 by omega]
    rw [pow_succ]
  have hK : (0:Int) < 2 ^ (w - 1) := by positivity
  have hcast1 : ((2 ^ (w - 1) : Nat) : Int) = (2:Int) ^ (w - 1) := by
    push_cast
    ring
  unfold sInterp wrapU
  by_cases hx : 0 <= x
  · have hmod : x % 2 ^ w = x := Int.emod_eq_of_lt hx (by omega)
    rw [hmod]
    split
    · omega
    · omega
  · push_neg at hx
    have hmod : x % 2 ^ w = x + 2 ^ w := by
      have h4 := Int.add_mul_emod_self_left x (2 ^ w) 1
      rw [Int.mul_one] at h4
      rw [← h4]
      exact Int.emod_eq_of_lt (by omega) (by omega)
    rw [hmod]
    split
    · omega
    · omega

/-- Reading back a mode discriminant recovers the mode. -/
theorem readMode_modeByte (m : Mode) (rest : List Nat) :
    readMode (modeByte m :: rest) = some (m, rest) := by
  cases m <;> rfl

/-- Every character code fits in four bytes. -/
theorem char_toNat_lt (c : Char) : c.toNat < 2 ^ 32 := by
  have h := UInt32.toNat_lt_size c.val
  have hs : UInt32.size = 2 ^ 32 := by norm_num [UInt32.size]
  simp only [Char.toNat]
  omega

/-- Reading back an encoded character sequence recovers it. -/
theorem readChars_writeChars (cs : List Char) (rest : List Nat) :
    readChars cs.length (writeChars cs ++ rest) = some (cs, rest) := by
  induction cs with
  | nil => rfl
  | cons c cs ih =>
    simp [writeChars, readChars, List.append_assoc,
      readNatLE_natToLE_pow2 4 c.toNat (char_toNat_lt c), ih]

/-- Reading back an encoded well-formed literal recovers it. -/
theorem literal_read_write_le (l : Literal) (hl : l.wellFormed = true)
    (rest : List Nat) :
    Literal.read_le (l.write_le ++ rest) = some (l, rest) := by
  cases l with
  | Boolean b m =>
    cases b <;> simp [Literal.write_le, Literal.read_le, readMode_modeByte]
  | Address s m =>
    have hlen : s.length < 2 ^ 32 := by
      simpa [Literal.wellFormed] using hl
    simp [Literal.write_le, Literal.read_le, readCharsPayload,
      List.append_assoc, readNatLE_natToLE_pow2 4 s.length hlen,
      readChars_writeChars, readMode_modeByte]
  | String s m =>
    have hlen : s.length < 2 ^ 32 := by
      simpa [Literal.wellFormed] using hl
    simp [Literal.write_le, Literal.read_le, readCharsPayload,
      List.append_assoc, readNatLE_natToLE_pow2 4 s.length hlen,
      readChars_writeChars, readMode_modeByte]
  | Field n m =>
    have hn : n < 2 ^ 256 := by
      simpa [Literal.wellFormed] using hl
    simp [Literal.write_le, Literal.read_le, readFixed, List.append_assoc,
      readNatLE_natToLE_pow2 32 n hn, readMode_modeByte]
  | Group n m =>
    have hn : n < 2 ^ 256 := by
      simpa [Literal.wellFormed] using hl
    simp [Literal.write_le, Literal.read_le, readFixed, List.append_assoc,
      readNatLE_natToLE_pow2 32 n hn, readMode_modeByte]
  | I8 v m =>
    have hb : -(128:Int) <= v ∧ v < 128 := by
      have h := hl
      norm_num [Literal.wellFormed, IntKind.inRange, IntKind.minVal,
        IntKind.maxVal, IntKind.signed, IntKind.width] at h
      omega
    have hs : sInterp 8 (wrapU 8 v) = v := by
      apply sInterp_wrapU 8 v
      · norm_num
        omega
      · norm_num
        omega
      · norm_num
    have hwlt := wrapU_lt 8 v
    norm_num at hwlt
    simp [Literal.write_le, Literal.read_le, readFixed, List.append_assoc,
      readNatLE_natToLE_pow2 1 (wrapU 8 v) (by norm_num; omega),
      readMode_modeByte, hs]
  | I16 v m =>
    have hb : -(32768:Int) <= v ∧ v < 32768 := by
      have h := hl
      norm_num [Literal.wellFormed, IntKind.inRange, IntKind.minVal,
        IntKind.maxVal, IntKind.signed, IntKind.width] at h
      omega
    have hs : sInterp 16 (wrapU 16 v) = v := by
      apply sInterp_wrapU 16 v
      · norm_num
        omega
      · norm_num
        omega
      · norm_num
    have hwlt := wrapU_lt 16 v
    norm_num at hwlt
    simp [Literal.write_le, Literal.read_le, readFixed, List.append_assoc,
      readNatLE_natToLE_pow2 2 (wrapU 16 v) (by norm_num; omega),
      readMode_modeByte, hs]
  | I32 v m =>
    have hb : -(2147483648:Int) <= v ∧ v < 2147483648 := by
      have h := hl
      norm_num [Literal.wellFormed, IntKind.inRange, IntKind.minVal,
        IntKind.maxVal, IntKind.signed, IntKind.width] at h
      omega
    have hs : sInterp 32 (wrapU 32 v) = v := by
      apply sInterp_wrapU 32 v
      · norm_num
        omega
      · norm_num
        omega
      · norm_num
    have hwlt := wrapU_lt 32 v
    norm_num at hwlt
    simp [Literal.write_le, Literal.read_le, readFixed, List.append_assoc,
      readNatLE_natToLE_pow2 4 (wrapU 32 v) (by norm_num; omega),
      readMode_modeByte, hs]
  | I64 v m =>
    have hb : -(9223372036854775808:Int) <= v ∧ v < 9223372036854775808 := by
      have h := hl
      norm_num [Literal.wellFormed, IntKind.inRange, IntKind.minVal,
        IntKind.maxVal, IntKind.signed, IntKind.width] at h
      omega
    have hs : sInterp 64 (wrapU 64 v) = v := by
      apply sInterp_wrapU 64 v
      · norm_num
        omega
      · norm_num
        omega
      · norm_num
    have hwlt := wrapU_lt 64 v
    norm_num at hwlt
    simp [Literal.write_le, Literal.read_le, readFixed, List.append_assoc,
      readNatLE_natToLE_pow2 8 (wrapU 64 v) (by norm_num; omega),
      readMode_modeByte, hs]
  | I128 v m =>
    have hb : -(170141183460469231731687303715884105728:Int) <= v ∧ v < 170141183460469231731687303715884105728 := by
      have h := hl
      norm_num [Literal.wellFormed, IntKind.inRange, IntKind.minVal,
        IntKind.maxVal, IntKind.signed, IntKind.width] at h
      omega
    have hs : sInterp 128 (wrapU 128 v) = v := by
      apply sInterp_wrapU 128 v
      · norm_num
        omega
      · norm_num
        omega
      · norm_num
    have hwlt := wrapU_lt 128 v
    norm_num at hwlt
    simp [Literal.write_le, Literal.read_le, readFixed, List.append_assoc,
      readNatLE_natToLE_pow2 16 (wrapU 128 v) (by norm_num; omega),
      readMode_modeByte, hs]
  | U8 v m =>
    have hb : v < 2 ^ 8 := by
      simpa [Literal.wellFormed] using hl
    simp [Literal.write_le, Literal.read_le, readFixed, List.append_assoc,
      readNatLE_natToLE_pow2 1 v (by norm_num; omega),
      readMode_modeByte]
  | U16 v m =>
    have hb : v < 2 ^ 16 := by
      simpa [Literal.wellFormed] using hl
    simp [Literal.write_le, Literal.read_le, readFixed, List.append_assoc,
      readNatLE_natToLE_pow2 2 v (by norm_num; omega),
      readMode_modeByte]
  | U32 v m =>
    have hb : v < 2 ^ 32 := by
      simpa [Literal.wellFormed] using hl
    simp [Literal.write_le, Literal.read_le, readFixed, List.append_assoc,
      readNatLE_natToLE_pow2 4 v (by norm_num; omega),
      readMode_modeByte]
  | U64 v m =>
    have hb : v < 2 ^ 64 := by
      simpa [Literal.wellFormed] using hl
    simp [Literal.write_le, Literal.read_le, readFixed, List.append_assoc,
      readNatLE_natToLE_pow2 8 v (by norm_num; omega),
      readMode_modeByte]
  | U128 v m =>
    have hb : v < 2 ^ 128 := by
      simpa [Literal.wellFormed] using hl
    simp [Literal.write_le, Literal.read_le, readFixed, List.append_assoc,
      readNatLE_natToLE_pow2 16 v (by norm_num; omega),
      readMode_modeByte]

/-- Reading back an encoded well-formed operand recovers it. -/
theorem operand_read_write_le (op : Operand) (hop : op.wellFormed = true)
    (rest : List Nat) :
    Operand.read_le (op.write_le ++ rest) = some (op, rest) := by
  cases op with
  | Register r =>
    have hr : r.locator < 2 ^ 32 := by
      simpa [Operand.wellFormed] using hop
    simp [Operand.write_le, Operand.read_le,
      readNatLE_natToLE_pow2 4 r.locator hr]
  | Literal l =>
    have hl : l.wellFormed = true := by
      simpa [Operand.wellFormed] using hop
    simp [Operand.write_le, Operand.read_le, literal_read_write_le l hl]

/-- Reading back an encoded well-formed binary operation recovers it. -/
theorem binaryOperation_read_write_le (op : BinaryOperation)
    (h1 : op.first.wellFormed = true) (h2 : op.second.wellFormed = true)
    (h3 : op.destination.locator < 2 ^ 32) (rest : List Nat) :
    BinaryOperation.read_le (op.write_le ++ rest) = some (op, rest) := by
  simp [BinaryOperation.write_le, BinaryOperation.read_le, List.append_assoc,
    operand_read_write_le op.first h1, operand_read_write_le op.second h2,
    readNatLE_natToLE_pow2 4 op.destination.locator h3]

/-- Reading back an encoded well-formed `sub.w` instruction recovers it. -/
theorem subWrapped_read_write_le (self : SubWrapped)
    (h : self.wellFormed = true) :
    SubWrapped.read_le self.write_le = some (self, []) := by
  have h' : self.operation.first.wellFormed = true ∧
      self.operation.second.wellFormed = true ∧
      self.operation.destination.locator < 2 ^ 32 := by
    simpa [SubWrapped.wellFormed, Bool.and_eq_true, and_assoc] using h
  have hb : self.operation.write_le = self.operation.write_le ++ [] := by simp
  unfold SubWrapped.read_le SubWrapped.write_le
  rw [hb, binaryOperation_read_write_le self.operation h'.1 h'.2.1 h'.2.2 []]

/-- String-level parser soundness: a fully consumed parse reproduces the
display's character data. -/
theorem subWrapped_parseString_sound (s : String) (inst : SubWrapped)
    (h : SubWrapped.parse s = some (inst, "")) :
    s.data = inst.displayChars := by
  unfold SubWrapped.parse at h
  split at h
  · rename_i inst1 rest1 hp
    have h2 := Option.some.inj h
    have hinst : inst1 = inst := congrArg Prod.fst h2
    have hrest : String.mk rest1 = "" := congrArg Prod.snd h2
    have hr : rest1 = [] := by
      have h3 := congrArg String.data hrest
      simpa using h3
    subst hr
    have hs := SubWrapped.parseChars_sound s.data inst1 [] hp
    rw [← hinst]
    simpa using hs
  · cases h

/-- C6: parsing a valid textual form of the `sub.w` instruction and then
displaying the parsed value reproduces the original text exactly; and
decoding (`read_le`) the binary encoding (`write_le`) of any well-formed
`sub.w` instruction yields a value equal to the original. -/
theorem subWrapped_round_trip (s : String) (inst : SubWrapped)
    (h : SubWrapped.parse s = some (inst, "")) :
    SubWrapped.display inst = s ∧
    ∀ i : SubWrapped, i.wellFormed = true →
      SubWrapped.read_le i.write_le = some (i, []) := by
  constructor
  · apply String.ext
    simp [SubWrapped.display, subWrapped_parseString_sound s inst h]
  · intro i hi
    exact subWrapped_read_write_le i hi

/-- Witness for C6 at the text `"r0 r1 into r2"`. -/
theorem subWrapped_round_trip_witness :
    SubWrapped.display ⟨⟨Operand.Register ⟨0⟩, Operand.Register ⟨1⟩, ⟨2⟩⟩⟩ =
      "r0 r1 into r2" ∧
    ∀ i : SubWrapped, i.wellFormed = true →
      SubWrapped.read_le i.write_le = some (i, []) :=
  subWrapped_round_trip "r0 r1 into r2"
    ⟨⟨Operand.Register ⟨0⟩, Operand.Register ⟨1⟩, ⟨2⟩⟩⟩ (by decide)

/-- C7 counterexample: `SubWrapped::parse` accepts `"r0 r1 into r2"`, a text
that does not begin with the opcode token `sub.w` (consuming the opcode
token from it fails) — the opcode is not part of the grammar accepted by the
instruction's own parse function. -/
theorem subWrapped_parse_no_opcode :
    SubWrapped.parse "r0 r1 into r2" =
      some (⟨⟨Operand.Register ⟨0⟩, Operand.Register ⟨1⟩, ⟨2⟩⟩⟩, "") ∧
    expectToken SubWrapped.opcode.data ("r0 r1 into r2" : String).data = none := by
  constructor
  · decide
  · decide

/-- C7 amended: the textual form accepted by `SubWrapped::parse` is exactly
`<operand1> <operand2> into <destination>` — the opcode token is handled by
the enclosing instruction envelope, not by the instruction's own parse — and
Display renders the two operands and the destination in the same shape. -/
theorem subWrapped_parse_grammar (s : String) (inst : SubWrapped)
    (h : SubWrapped.parse s = some (inst, "")) :
    s.data = inst.operation.first.displayChars
      ++ ' ' :: inst.operation.second.displayChars
      ++ " into ".data ++ inst.operation.destination.displayChars ∧
    (SubWrapped.display inst).data = inst.operation.first.displayChars
      ++ ' ' :: inst.operation.second.displayChars
      ++ " into ".data ++ inst.operation.destination.displayChars := by
  have hs := subWrapped_parseString_sound s inst h
  constructor
  · rw [hs]
    rfl
  · rfl

/-- Witness for the amended C7 at the text `"r0 r1 into r2"`. -/
theorem subWrapped_parse_grammar_witness :
    ("r0 r1 into r2" : String).data =
      (Operand.Register ⟨0⟩).displayChars
        ++ ' ' :: (Operand.Register ⟨1⟩).displayChars
        ++ " into ".data ++ (⟨2⟩ : Register).displayChars ∧
    (SubWrapped.display ⟨⟨Operand.Register ⟨0⟩, Operand.Register ⟨1⟩, ⟨2⟩⟩⟩).data =
      (Operand.Register ⟨0⟩).displayChars
        ++ ' ' :: (Operand.Register ⟨1⟩).displayChars
        ++ " into ".data ++ (⟨2⟩ : Register).displayChars :=
  subWrapped_parse_grammar "r0 r1 into r2"
    ⟨⟨Operand.Register ⟨0⟩, Operand.Register ⟨1⟩, ⟨2⟩⟩⟩ (by decide)
